import Mathlib

/-!
Verification of the Green-Boy SLURM Telegram bot (`green-boy.py`) against its
natural-language specification.  The Python code is shallowly embedded: pure
string manipulation is translated to Lean functions over `String`/`List Char`,
external effects (subprocess invocation, Telegram message dispatch, the JSON
persistence file) are supplied as explicit environment values, and the mutable
module-level dictionary `MONITORED_JOBS` becomes an explicitly threaded
association list.
-/

namespace GreenBoy

/-! ## Python string primitives

The embedding needs Python's `str.strip()`, `str.split(c)` (single-character
separator), substring containment (`pat in s`) and `int(s)`.  They are defined
by structural recursion on `List Char` so that concrete instances reduce in the
kernel. -/

/-- The whitespace characters stripped by Python's `str.strip()`. -/
def isPySpace (c : Char) : Bool :=
  c = ' ' || c = '\t' || c = '\n' || c = '\r' || c = '\x0b' || c = '\x0c'

/-- Python `s.strip()`: drop leading and trailing whitespace. -/
def pyStrip (s : String) : String :=
  ⟨((s.data.dropWhile isPySpace).reverse.dropWhile isPySpace).reverse⟩

/-- Split a character list on a separator character, Python `str.split(sep)`
semantics for a one-character separator: `"" ↦ [""]`, separators at the ends
produce empty fields. -/
def splitOnCharAux (sep : Char) : List Char → List (List Char)
  | [] => [[]]
  | c :: cs =>
    let rest := splitOnCharAux sep cs
    if c = sep then
      [] :: rest
    else
      match rest with
      | [] => [[c]]
      | h :: t => (c :: h) :: t

/-- Python `s.split(sep)` for a single-character separator. -/
def pySplit (s : String) (sep : Char) : List String :=
  (splitOnCharAux sep s.data).map (fun l => ⟨l⟩)

/-- Auxiliary for substring containment: does `pat` occur in `l`? -/
def infixAux (pat : List Char) : List Char → Bool
  | [] => pat.isEmpty
  | c :: cs => pat.isPrefixOf (c :: cs) || infixAux pat cs

/-- Python `pat in s` (substring containment). -/
def pyIn (pat s : String) : Bool :=
  infixAux pat.data s.data

/-- Value of a list of decimal digit characters. -/
def digitsToNat (cs : List Char) : Nat :=
  cs.foldl (fun n c => n * 10 + (c.toNat - 48)) 0

/-- Python `int(s)` for the decimal strings this program feeds it (the
`NumCPUs` field of `scontrol` output, or the default `0`).  On malformed input
Python raises `ValueError`; the claims under verification never exercise that
path, and the model returns `0` there. -/
def pyInt (s : String) : Int :=
  match (pyStrip s).data with
  | '-' :: ds => if ds ≠ [] ∧ ds.all Char.isDigit = true then -(digitsToNat ds : Int) else 0
  | ds => if ds ≠ [] ∧ ds.all Char.isDigit = true then (digitsToNat ds : Int) else 0

/-! ## Job id normalization

`monitor_job`, `stop_monitoring_job` and `cancel_command` all run
`re.match(r'(\d+)', job_id)` and, when it matches, replace the id by
`group(1)`: the maximal leading run of digits.  When there is no leading
digit the id is left unchanged (in `cancel_command` it is instead rejected,
which the cancellation claims do not touch). -/

/-- The job id after `re.match(r'(\d+)', job_id)` cleanup: the maximal leading
digit run when the first character is a digit, otherwise the id unchanged. -/
def cleanId (s : String) : String :=
  let d := s.data.takeWhile Char.isDigit
  if d.isEmpty then s else ⟨d⟩

/-! ## Command executor: `run_slurm_command` -/

/-- Outcome of the external process started by `subprocess.run`: exit status
and captured output streams (`capture_output=True, text=True`). -/
structure ProcResult where
  returncode : Int
  stdout : String
  stderr : String
deriving DecidableEq, Repr

/-- The data carried by `subprocess.CalledProcessError`, raised by
`subprocess.run(..., check=True)` on a nonzero exit status. -/
structure CalledProcessError where
  cmd : List String
  returncode : Int
  stdout : String
  stderr : String
deriving DecidableEq, Repr

/-- Python `repr` of a list of strings, as used by `str(e)` on a
`CalledProcessError` whose `cmd` is a list. -/
def pyListRepr (xs : List String) : String :=
  "[" ++ String.intercalate ", " (xs.map (fun x => "'" ++ x ++ "'")) ++ "]"

/-- `str(e)` for a `CalledProcessError` with a non-negative exit status:
CPython formats `"Command '%s' returned non-zero exit status %d."`, so the
`repr` of the command list is wrapped in single quotes, e.g.
`Command '['squeue', '--me']' returned non-zero exit status 1.`  (For a
negative status, i.e. death by signal, CPython prints a different message; no
claim depends on that variant.) -/
def cpeStr (e : CalledProcessError) : String :=
  "Command '" ++ pyListRepr e.cmd ++ "' returned non-zero exit status " ++
    toString e.returncode ++ "."

/-- `subprocess.run(cmd, capture_output=True, text=True, check=True)`:
returns the completed process on exit status `0` and raises
`CalledProcessError` otherwise. -/
def subprocessRunCheck (cmd : List String) (res : ProcResult) :
    Except CalledProcessError ProcResult :=
  if res.returncode = 0 then .ok res
  else .error ⟨cmd, res.returncode, res.stdout, res.stderr⟩

/-- `run_slurm_command` (green-boy.py:418-430).  The `try`/`except` around the
subprocess call is embedded as a `match` on the `Except` outcome, so the
function is total: every outcome of the external invocation yields a
`(success, output)` pair.  On success the output is `result.stdout` with the
placeholder substituted for the empty string; on failure it is
`"Error: "` followed by `e.stderr.strip()`, falling back to `str(e)` when the
stripped stderr is empty. -/
def run_slurm_command (cmd : List String) (res : ProcResult) : Bool × String :=
  match subprocessRunCheck cmd res with
  | .ok r => (true, if r.stdout = "" then "(command completed successfully)" else r.stdout)
  | .error e =>
    (false, "Error: " ++ (if pyStrip e.stderr = "" then cpeStr e else pyStrip e.stderr))

/-! ## Job registry data model

`MONITORED_JOBS` is a Python dict from job id to
`{"user_id", "chat_id", "last_state", "added_time"}`.  It is embedded as an
association list threaded through the operations; `rset` mirrors dict
assignment (overwrite in place, append when absent, preserving insertion
order), `rdel` mirrors `del`, `rget` mirrors lookup. -/

/-- The per-job record stored in `MONITORED_JOBS` (green-boy.py:956-961). -/
structure MonitorEntry where
  user_id : Int
  chat_id : Int
  last_state : String
  added_time : String
deriving DecidableEq, Repr

/-- The in-memory registry `MONITORED_JOBS`. -/
abbrev Registry := List (String × MonitorEntry)

/-- The dictionary produced by `get_job_details`: scontrol key/value pairs, or
`{"JobId": ..., "Error": ...}` when the query failed. -/
abbrev Details := List (String × String)

/-- Python `d.get(k, dflt)` on a string-valued dict. -/
def dgetS (d : Details) (k dflt : String) : String :=
  match d with
  | [] => dflt
  | p :: rest => if p.1 = k then p.2 else dgetS rest k dflt

/-- Python `k in d` on a string-valued dict. -/
def hasKeyS (d : Details) (k : String) : Bool :=
  match d with
  | [] => false
  | p :: rest => if p.1 = k then true else hasKeyS rest k

/-- Registry lookup, Python `MONITORED_JOBS.get(j)` / `j in MONITORED_JOBS`. -/
def rget (reg : Registry) (j : String) : Option MonitorEntry :=
  match reg with
  | [] => none
  | p :: rest => if p.1 = j then some p.2 else rget rest j

/-- Registry assignment `MONITORED_JOBS[j] = e`: overwrite the existing
binding in place, append when absent. -/
def rset (reg : Registry) (j : String) (e : MonitorEntry) : Registry :=
  match reg with
  | [] => [(j, e)]
  | p :: rest => if p.1 = j then (j, e) :: rest else p :: rset rest j e

/-- Registry deletion `del MONITORED_JOBS[j]`. -/
def rdel (reg : Registry) (j : String) : Registry :=
  match reg with
  | [] => []
  | p :: rest => if p.1 = j then rdel rest j else p :: rdel rest j

/-- The keys of the registry, for the no-duplicate-keys dict invariant. -/
def rkeys (reg : Registry) : List String :=
  reg.map Prod.fst

/-- The terminal job states (green-boy.py:944, 1049, 537). -/
def terminalStates : List String :=
  ["COMPLETED", "CANCELLED", "FAILED", "TIMEOUT"]

/-- Membership in the terminal-state list. -/
def isTerminal (s : String) : Bool :=
  terminalStates.contains s

/-! ## Subscribe: `monitor_job` -/

/-- The request-side inputs of `monitor_job`: effective user, chat, the raw
job id argument, and the timestamp string `datetime.now().strftime(...)`. -/
structure SubRequest where
  user_id : Int
  chat_id : Int
  job_id : String
  now : String
deriving Repr

/-- Result of a `monitor_job` call: the registry afterwards, whether the
subscription was accepted (the function's return value), and whether
`save_monitored_jobs` was called. -/
structure SubOutcome where
  reg : Registry
  accepted : Bool
  saved : Bool
deriving DecidableEq, Repr

/-- `monitor_job` (green-boy.py:922-982), registry effect.  `details` is the
result of `get_job_details` on the cleaned job id, supplied by the
environment.  Rejection paths (query error, terminal current state) return
early after replying to the user, touching neither the registry nor the
persistence file. -/
def monitor_job (reg : Registry) (req : SubRequest) (details : Details) : SubOutcome :=
  let jid := cleanId req.job_id
  if hasKeyS details "Error" = true then
    ⟨reg, false, false⟩
  else
    let current_state := dgetS details "JobState" "UNKNOWN"
    if isTerminal current_state = true then
      ⟨reg, false, false⟩
    else
      ⟨rset reg jid ⟨req.user_id, req.chat_id, current_state, req.now⟩, true, true⟩

/-! ## Unsubscribe: `stop_monitoring_job` -/

/-- Outcome of `stop_monitoring_job`, split by which user-visible reply the
code sends: removal, "is not being monitored", or "not authorized". -/
inductive UnsubResult
  | Removed
  | NotFound
  | Forbidden
deriving DecidableEq, Repr

/-- `is_authorized` (green-boy.py:411-416): with no configured authorized
users every user is authorized, otherwise membership in the list. -/
def is_authorized (authUsers : List Int) (uid : Int) : Bool :=
  authUsers.isEmpty || authUsers.contains uid

/-- `stop_monitoring_job` (green-boy.py:984-1024): clean the id, report
NotFound when the job is not monitored, Forbidden when the requester is
neither the subscriber nor an authorized user, otherwise delete the entry and
persist. -/
def stop_monitoring_job (authUsers : List Int) (reg : Registry) (uid : Int)
    (job_id : String) : Registry × UnsubResult :=
  let jid := cleanId job_id
  match rget reg jid with
  | none => (reg, .NotFound)
  | some e =>
    if e.user_id ≠ uid ∧ is_authorized authUsers uid = false then
      (reg, .Forbidden)
    else
      (rdel reg jid, .Removed)

/-! ## Monitor tick: `check_monitored_jobs`

The tick's external effects are abstracted into a `TickEnv`: `query j` is the
`get_job_details j` result during this tick, and `dispatchOk j` tells whether
`context.bot.send_message` for job `j`'s notification returns normally
(`false` = the call raises, caught by the `except` block).  The tick iterates
over a snapshot copy of the registry while mutating the live registry; the
second component of the result lists the job ids for which a notification
dispatch was attempted. -/

/-- Environment of one monitor tick. -/
structure TickEnv where
  query : String → Details
  dispatchOk : String → Bool

/-- The loop body of `check_monitored_jobs` (green-boy.py:1034-1119) for one
snapshot item `(jid, info)`, acting on the live registry `acc.1` and the list
of attempted notifications `acc.2`. -/
def tickStep (env : TickEnv) (acc : Registry × List String) (jid : String)
    (info : MonitorEntry) : Registry × List String :=
  let details := env.query jid
  if hasKeyS details "Error" = true then
    acc
  else
    let current_state := dgetS details "JobState" "UNKNOWN"
    if current_state ≠ info.last_state ∧ isTerminal current_state = true then
      if env.dispatchOk jid = true then
        (rdel acc.1 jid, acc.2 ++ [jid])
      else
        (acc.1, acc.2 ++ [jid])
    else if current_state ≠ info.last_state then
      (rset acc.1 jid { info with last_state := current_state }, acc.2)
    else
      acc

/-- The `for job_id, job_info in jobs_to_check.items()` loop. -/
def tickGo (env : TickEnv) : List (String × MonitorEntry) →
    Registry × List String → Registry × List String
  | [], acc => acc
  | p :: rest, acc => tickGo env rest (tickStep env acc p.1 p.2)

/-- `check_monitored_jobs` (green-boy.py:1026-1119): iterate a snapshot copy
of `MONITORED_JOBS`, mutating the live registry. -/
def check_monitored_jobs (env : TickEnv) (reg : Registry) : Registry × List String :=
  tickGo env reg (reg, [])

/-- Derived per-entry effect: what one tick does to the entry `(jid, info)`
(`none` = removed, `some e` = bound to `e` afterwards).  Used to characterize
the tick, proved equal to it below. -/
def stepResult (env : TickEnv) (jid : String) (info : MonitorEntry) : Option MonitorEntry :=
  let details := env.query jid
  if hasKeyS details "Error" = true then
    some info
  else
    let current_state := dgetS details "JobState" "UNKNOWN"
    if current_state ≠ info.last_state ∧ isTerminal current_state = true then
      if env.dispatchOk jid = true then none else some info
    else if current_state ≠ info.last_state then
      some { info with last_state := current_state }
    else
      some info

/-- Derived per-entry predicate: does the tick attempt a notification
dispatch for `(jid, info)`? -/
def stepAttempt (env : TickEnv) (jid : String) (info : MonitorEntry) : Bool :=
  let details := env.query jid
  if hasKeyS details "Error" = true then
    false
  else
    let current_state := dgetS details "JobState" "UNKNOWN"
    decide (current_state ≠ info.last_state) && isTerminal current_state

/-! ## Resource usage query: `get_job_resource_usage`

The result dict of `get_job_resource_usage` holds heterogeneous values
(strings from the pipe tables, an int for `AllocatedCPUs`, a list of per-task
dicts under `"tasks"`), embedded as `UVal`.  The three external command
invocations (basic `sstat`, per-task `sstat`, `sacct`) are supplied as
`(success, output)` pairs in a `UsageEnv`, exactly the shape
`run_slurm_command` returns. -/

/-- A value of the resource-usage result dict. -/
inductive UVal
  | s (v : String)
  | i (v : Int)
  | tasks (ts : List (List (String × String)))
deriving DecidableEq, Repr

/-- The resource-usage result dict. -/
abbrev UDict := List (String × UVal)

/-- Dict assignment `result[k] = v`: overwrite in place, append when absent. -/
def dset (d : UDict) (k : String) (v : UVal) : UDict :=
  match d with
  | [] => [(k, v)]
  | p :: rest => if p.1 = k then (k, v) :: rest else p :: dset rest k v

/-- Dict lookup on the resource-usage result. -/
def dlookup (d : UDict) (k : String) : Option UVal :=
  match d with
  | [] => none
  | p :: rest => if p.1 = k then some p.2 else dlookup rest k

/-- String-dict assignment, for the per-task dicts. -/
def sset (d : Details) (k v : String) : Details :=
  match d with
  | [] => [(k, v)]
  | p :: rest => if p.1 = k then (k, v) :: rest else p :: sset rest k v

/-- `for i, header in enumerate(headers): if i < len(values):
result[header.strip()] = values[i].strip()` — zipping truncates to the
shorter list, exactly the `i < len(values)` guard. -/
def addRow (d : UDict) (headers values : List String) : UDict :=
  (headers.zip values).foldl (fun acc p => dset acc (pyStrip p.1) (UVal.s (pyStrip p.2))) d

/-- One per-task dict, built the same way from the task header row and one
data row. -/
def taskOf (headers values : List String) : List (String × String) :=
  (headers.zip values).foldl (fun acc p => sset acc (pyStrip p.1) (pyStrip p.2)) []

/-- Outcomes of the external invocations made by `get_job_resource_usage`. -/
structure UsageEnv where
  details : Details
  sstat1 : Bool × String
  sstat2 : Bool × String
  sacct : Bool × String

/-- The base dict built before any branch of `get_job_resource_usage`
(green-boy.py:475-481). -/
def baseResult (job_id : String) (details : Details) : UDict :=
  [("AllocatedCPUs", .i (pyInt (dgetS details "NumCPUs" "0"))),
   ("AllocatedNodes", .s (dgetS details "NumNodes" "0")),
   ("NodeList", .s (dgetS details "NodeList" "")),
   ("JobState", .s (dgetS details "JobState" "UNKNOWN")),
   ("JobId", .s (dgetS details "JobId" job_id))]

/-- `get_job_resource_usage` (green-boy.py:469-562).  RUNNING jobs add the
basic `sstat` row and a `"tasks"` list; terminal jobs add the `sacct` row and
then overwrite `result["JobState"]` with the literal `"COMPLETED"`; all other
states return the base dict unchanged. -/
def get_job_resource_usage (job_id : String) (env : UsageEnv) : UDict :=
  let job_state := dgetS env.details "JobState" "UNKNOWN"
  let result := baseResult job_id env.details
  if job_state = "RUNNING" then
    let result :=
      if env.sstat1.1 = true ∧ pyIn "No job(s) found" env.sstat1.2 = false ∧
          pyStrip env.sstat1.2 ≠ "" then
        match pySplit (pyStrip env.sstat1.2) '\n' with
        | h :: v :: _ => addRow result (pySplit h '|') (pySplit v '|')
        | _ => result
      else result
    if env.sstat2.1 = true ∧ pyIn "No job(s) found" env.sstat2.2 = false ∧
        pyStrip env.sstat2.2 ≠ "" then
      match pySplit (pyStrip env.sstat2.2) '\n' with
      | th :: l :: rest =>
        dset result "tasks"
          (.tasks ((l :: rest).map (fun line => taskOf (pySplit th '|') (pySplit line '|'))))
      | _ => result
    else result
  else if isTerminal job_state = true then
    if env.sacct.1 = true ∧ pyStrip env.sacct.2 ≠ "" then
      match pySplit (pyStrip env.sacct.2) '\n' with
      | h :: v :: _ =>
        dset (addRow result (pySplit h '|') (pySplit v '|')) "JobState" (.s "COMPLETED")
      | _ => result
    else result
  else
    result

/-! ## Persistence: `save_monitored_jobs` / `load_monitored_jobs`

`save_monitored_jobs` passes `MONITORED_JOBS` to `json.dump`;
`load_monitored_jobs` reads it back with `json.load`.  The `json` module is an
external collaborator and is modelled at the document level: `JsonDoc` covers
exactly the value shapes a registry produces (objects, strings, arbitrary
precision integers), for which `json.dump`/`json.load` round-trip the textual
form faithfully.  Saving maps the registry to its document; loading interprets
a document back into a typed registry, `none` on shapes no save produces. -/

/-- JSON documents of the shapes the registry serializes to. -/
inductive JsonDoc
  | str (s : String)
  | int (n : Int)
  | obj (fields : List (String × JsonDoc))

/-- The JSON object for one monitor entry, as `json.dump` writes it. -/
def entryToJson (e : MonitorEntry) : JsonDoc :=
  .obj [("user_id", .int e.user_id), ("chat_id", .int e.chat_id),
        ("last_state", .str e.last_state), ("added_time", .str e.added_time)]

/-- `save_monitored_jobs` (green-boy.py:389-395): the document written to
`MONITORED_JOBS_FILE`. -/
def save_monitored_jobs (reg : Registry) : JsonDoc :=
  .obj (reg.map (fun p => (p.1, entryToJson p.2)))

/-- Interpret a JSON object back into a monitor entry. -/
def entryOfJson : JsonDoc → Option MonitorEntry
  | .obj [("user_id", .int u), ("chat_id", .int c),
          ("last_state", .str l), ("added_time", .str a)] => some ⟨u, c, l, a⟩
  | _ => none

/-- Interpret the fields of the top-level JSON object. -/
def decodeFields : List (String × JsonDoc) → Option Registry
  | [] => some []
  | p :: rest =>
    match entryOfJson p.2, decodeFields rest with
    | some e, some r => some ((p.1, e) :: r)
    | _, _ => none

/-- `load_monitored_jobs` (green-boy.py:397-407) on a present, readable file:
interpret the document as a registry. -/
def load_monitored_jobs (doc : JsonDoc) : Option Registry :=
  match doc with
  | .obj fields => decodeFields fields
  | _ => none

/-! ## Reachable registry states

For the registry invariant (claim about every reachable state), the three
registry-mutating operations are collected into `RegOp` and applied from the
empty registry a fresh process starts with. -/

/-- A registry-mutating operation. -/
inductive RegOp
  | subscribe (req : SubRequest) (details : Details)
  | unsubscribe (authUsers : List Int) (uid : Int) (job_id : String)
  | tick (env : TickEnv)

/-- Apply one operation to the registry. -/
def applyOp (reg : Registry) : RegOp → Registry
  | .subscribe req details => (monitor_job reg req details).reg
  | .unsubscribe au uid jid => (stop_monitoring_job au reg uid jid).1
  | .tick env => (check_monitored_jobs env reg).1

/-- The registry after a sequence of operations, starting from the empty
registry of a fresh process. -/
def runOps (ops : List RegOp) : Registry :=
  ops.foldl applyOp []


/-! ## Registry lemmas -/

theorem rkeys_nil : rkeys ([] : Registry) = [] := rfl

theorem rkeys_cons (p : String × MonitorEntry) (rest : Registry) :
    rkeys (p :: rest) = p.1 :: rkeys rest := rfl

theorem rget_rdel_self (reg : Registry) (j : String) : rget (rdel reg j) j = none := by
  induction reg with
  | nil => rfl
  | cons p rest ih =>
    by_cases h : p.1 = j <;> simp [rdel, h, rget, ih]

theorem rget_rdel_ne (reg : Registry) {j j' : String} (h : j' ≠ j) :
    rget (rdel reg j) j' = rget reg j' := by
  induction reg with
  | nil => rfl
  | cons p rest ih =>
    by_cases hp : p.1 = j
    · have hp' : ¬ p.1 = j' := by rw [hp]; exact fun hc => h hc.symm
      have hj' : ¬ j = j' := fun hc => h hc.symm
      simp [rdel, hp, rget, hp', hj', ih]
    · by_cases hq : p.1 = j' <;> simp [rdel, hp, rget, hq, h, ih]

theorem rget_rset_self (reg : Registry) (j : String) (e : MonitorEntry) :
    rget (rset reg j e) j = some e := by
  induction reg with
  | nil => simp [rset, rget]
  | cons p rest ih =>
    by_cases h : p.1 = j <;> simp [rset, h, rget, ih]

theorem rget_rset_ne (reg : Registry) {j j' : String} (e : MonitorEntry) (h : j' ≠ j) :
    rget (rset reg j e) j' = rget reg j' := by
  have hj : ¬ j = j' := fun hc => h hc.symm
  induction reg with
  | nil => simp [rset, rget, hj]
  | cons p rest ih =>
    by_cases hp : p.1 = j
    · have hp' : ¬ p.1 = j' := by rw [hp]; exact fun hc => h hc.symm
      simp [rset, hp, rget, hj, hp']
    · by_cases hq : p.1 = j' <;> simp [rset, hp, rget, hq, h, ih]

theorem rget_mem {reg : Registry} {j : String} {e : MonitorEntry}
    (h : rget reg j = some e) : (j, e) ∈ reg := by
  induction reg with
  | nil => simp [rget] at h
  | cons p rest ih =>
    rcases p with ⟨k, v⟩
    by_cases hp : k = j
    · subst hp
      simp [rget] at h
      subst h
      exact List.mem_cons_self _ _
    · simp [rget, hp] at h
      exact List.mem_cons_of_mem _ (ih h)

theorem rget_eq_none_of_not_mem_keys {reg : Registry} {j : String}
    (h : j ∉ rkeys reg) : rget reg j = none := by
  induction reg with
  | nil => rfl
  | cons p rest ih =>
    rw [rkeys_cons, List.mem_cons, not_or] at h
    have hp : ¬ p.1 = j := fun hc => h.1 hc.symm
    simp [rget, hp]
    exact ih h.2

theorem not_mem_keys_of_rget_none {reg : Registry} {j : String}
    (h : rget reg j = none) : j ∉ rkeys reg := by
  induction reg with
  | nil => simp [rkeys_nil]
  | cons p rest ih =>
    by_cases hp : p.1 = j
    · simp [rget, hp] at h
    · simp [rget, hp] at h
      rw [rkeys_cons, List.mem_cons, not_or]
      exact ⟨fun hc => hp hc.symm, ih h⟩

theorem mem_rkeys_rset {reg : Registry} {j a : String} {e : MonitorEntry}
    (h : a ∈ rkeys (rset reg j e)) : a = j ∨ a ∈ rkeys reg := by
  induction reg with
  | nil => simpa [rset, rkeys] using h
  | cons p rest ih =>
    by_cases hp : p.1 = j
    · rw [show rset (p :: rest) j e = (j, e) :: rest from by simp [rset, hp]] at h
      rw [rkeys_cons, List.mem_cons] at h
      rcases h with h | h
      · exact Or.inl h
      · exact Or.inr (by rw [rkeys_cons]; exact List.mem_cons_of_mem _ h)
    · rw [show rset (p :: rest) j e = p :: rset rest j e from by simp [rset, hp]] at h
      rw [rkeys_cons, List.mem_cons] at h
      rcases h with h | h
      · exact Or.inr (by rw [rkeys_cons, h]; exact List.mem_cons_self _ _)
      · rcases ih h with h' | h'
        · exact Or.inl h'
        · exact Or.inr (by rw [rkeys_cons]; exact List.mem_cons_of_mem _ h')

theorem mem_rkeys_rdel {reg : Registry} {j a : String}
    (h : a ∈ rkeys (rdel reg j)) : a ∈ rkeys reg := by
  induction reg with
  | nil => simpa [rdel] using h
  | cons p rest ih =>
    by_cases hp : p.1 = j
    · rw [show rdel (p :: rest) j = rdel rest j from by simp [rdel, hp]] at h
      rw [rkeys_cons]
      exact List.mem_cons_of_mem _ (ih h)
    · rw [show rdel (p :: rest) j = p :: rdel rest j from by simp [rdel, hp]] at h
      rw [rkeys_cons, List.mem_cons] at h
      rcases h with h | h
      · rw [rkeys_cons, h]; exact List.mem_cons_self _ _
      · rw [rkeys_cons]; exact List.mem_cons_of_mem _ (ih h)

theorem nodup_rkeys_rset {reg : Registry} (j : String) (e : MonitorEntry)
    (h : (rkeys reg).Nodup) : (rkeys (rset reg j e)).Nodup := by
  induction reg with
  | nil => simp [rset, rkeys]
  | cons p rest ih =>
    rw [rkeys_cons, List.nodup_cons] at h
    by_cases hp : p.1 = j
    · rw [show rset (p :: rest) j e = (j, e) :: rest from by simp [rset, hp]]
      rw [rkeys_cons, List.nodup_cons]
      exact ⟨by rw [← hp]; exact h.1, h.2⟩
    · rw [show rset (p :: rest) j e = p :: rset rest j e from by simp [rset, hp]]
      rw [rkeys_cons, List.nodup_cons]
      refine ⟨fun hc => ?_, ih h.2⟩
      rcases mem_rkeys_rset hc with h' | h'
      · exact hp h'
      · exact h.1 h'

theorem nodup_rkeys_rdel {reg : Registry} (j : String)
    (h : (rkeys reg).Nodup) : (rkeys (rdel reg j)).Nodup := by
  induction reg with
  | nil => simp [rdel, rkeys]
  | cons p rest ih =>
    rw [rkeys_cons, List.nodup_cons] at h
    by_cases hp : p.1 = j
    · rw [show rdel (p :: rest) j = rdel rest j from by simp [rdel, hp]]
      exact ih h.2
    · rw [show rdel (p :: rest) j = p :: rdel rest j from by simp [rdel, hp]]
      rw [rkeys_cons, List.nodup_cons]
      exact ⟨fun hc => h.1 (mem_rkeys_rdel hc), ih h.2⟩


/-! ## Monitor tick lemmas

`tickGo` folds the loop body over a snapshot of the registry while mutating
the live registry.  Because each iteration only touches its own key, the tick
is characterized per key by `stepResult`, and the attempted notifications by
`stepAttempt`. -/

theorem tickStep_fst_ne (env : TickEnv) (acc : Registry × List String) (jid : String)
    (info : MonitorEntry) {j : String} (h : j ≠ jid) :
    rget (tickStep env acc jid info).1 j = rget acc.1 j := by
  dsimp only [tickStep]
  split
  · rfl
  · split
    · split
      · exact rget_rdel_ne _ h
      · rfl
    · split
      · exact rget_rset_ne _ _ h
      · rfl

theorem tickStep_fst_self (env : TickEnv) (acc : Registry × List String) (jid : String)
    (info : MonitorEntry) (h : rget acc.1 jid = some info) :
    rget (tickStep env acc jid info).1 jid = stepResult env jid info := by
  dsimp only [tickStep, stepResult]
  split
  · exact h
  · split
    · split
      · exact rget_rdel_self _ _
      · exact h
    · split
      · exact rget_rset_self _ _ _
      · exact h

theorem tickStep_snd (env : TickEnv) (acc : Registry × List String) (jid : String)
    (info : MonitorEntry) :
    (tickStep env acc jid info).2 =
      acc.2 ++ (if stepAttempt env jid info = true then [jid] else []) := by
  dsimp only [tickStep, stepAttempt]
  by_cases h1 : hasKeyS (env.query jid) "Error" = true
  · simp [h1]
  · simp only [if_neg h1]
    by_cases h2 : dgetS (env.query jid) "JobState" "UNKNOWN" ≠ info.last_state ∧
        isTerminal (dgetS (env.query jid) "JobState" "UNKNOWN") = true
    · simp only [if_pos h2]
      by_cases h3 : env.dispatchOk jid = true <;> simp [h3, h2]
    · simp only [if_neg h2]
      by_cases h4 : dgetS (env.query jid) "JobState" "UNKNOWN" ≠ info.last_state
      · have h5 : isTerminal (dgetS (env.query jid) "JobState" "UNKNOWN") = false := by
          rcases Bool.eq_false_or_eq_true
              (isTerminal (dgetS (env.query jid) "JobState" "UNKNOWN")) with h | h
          · exact absurd ⟨h4, h⟩ h2
          · exact h
        simp [h4, h5]
      · simp [h4]

theorem tickStep_fst_nodup (env : TickEnv) (acc : Registry × List String) (jid : String)
    (info : MonitorEntry) (h : (rkeys acc.1).Nodup) :
    (rkeys (tickStep env acc jid info).1).Nodup := by
  dsimp only [tickStep]
  split
  · exact h
  · split
    · split
      · exact nodup_rkeys_rdel _ h
      · exact h
    · split
      · exact nodup_rkeys_rset _ _ h
      · exact h

theorem tickGo_fst_not_mem (env : TickEnv) (snap : List (String × MonitorEntry)) :
    ∀ (acc : Registry × List String) {j : String}, j ∉ snap.map Prod.fst →
    rget (tickGo env snap acc).1 j = rget acc.1 j := by
  induction snap with
  | nil => intro acc j _; rfl
  | cons p rest ih =>
    intro acc j h
    rw [List.map_cons, List.mem_cons, not_or] at h
    rw [tickGo, ih _ h.2, tickStep_fst_ne env acc p.1 p.2 h.1]

theorem tickGo_fst_mem (env : TickEnv) (snap : List (String × MonitorEntry)) :
    ∀ (acc : Registry × List String) {j : String} {e : MonitorEntry},
    (snap.map Prod.fst).Nodup → (j, e) ∈ snap → rget acc.1 j = some e →
    rget (tickGo env snap acc).1 j = stepResult env j e := by
  induction snap with
  | nil => intro acc j e _ hmem _; simp at hmem
  | cons p rest ih =>
    intro acc j e hnd hmem hacc
    rw [List.map_cons, List.nodup_cons] at hnd
    rw [tickGo]
    rcases List.mem_cons.mp hmem with heq | hmem'
    · obtain ⟨k, v⟩ := p
      injection heq with hj he
      subst hj
      subst he
      rw [tickGo_fst_not_mem env rest _ hnd.1]
      exact tickStep_fst_self env acc _ _ hacc
    · have hj : j ≠ p.1 := by
        intro hc
        exact hnd.1 (hc ▸ List.mem_map_of_mem Prod.fst hmem')
      refine ih _ hnd.2 hmem' ?_
      rw [tickStep_fst_ne env acc p.1 p.2 hj]
      exact hacc

theorem tickGo_snd (env : TickEnv) (snap : List (String × MonitorEntry)) :
    ∀ acc : Registry × List String,
    (tickGo env snap acc).2 =
      acc.2 ++ snap.filterMap
        (fun p => if stepAttempt env p.1 p.2 = true then some p.1 else none) := by
  induction snap with
  | nil => intro acc; simp [tickGo]
  | cons p rest ih =>
    intro acc
    rw [tickGo, ih, tickStep_snd, List.filterMap_cons]
    by_cases h : stepAttempt env p.1 p.2 = true <;> simp [h]

theorem tickGo_fst_nodup (env : TickEnv) (snap : List (String × MonitorEntry)) :
    ∀ acc : Registry × List String, (rkeys acc.1).Nodup →
    (rkeys (tickGo env snap acc).1).Nodup := by
  induction snap with
  | nil => intro acc h; exact h
  | cons p rest ih =>
    intro acc h
    rw [tickGo]
    exact ih _ (tickStep_fst_nodup env acc p.1 p.2 h)

theorem tick_rget {env : TickEnv} {reg : Registry} {j : String} {e : MonitorEntry}
    (hnd : (rkeys reg).Nodup) (h : rget reg j = some e) :
    rget (check_monitored_jobs env reg).1 j = stepResult env j e :=
  tickGo_fst_mem env reg (reg, []) hnd (rget_mem h) h

theorem tick_rget_none {env : TickEnv} {reg : Registry} {j : String}
    (h : rget reg j = none) :
    rget (check_monitored_jobs env reg).1 j = none := by
  rw [check_monitored_jobs, tickGo_fst_not_mem env reg _ (not_mem_keys_of_rget_none h)]
  exact h

theorem tick_attempts (env : TickEnv) (reg : Registry) :
    (check_monitored_jobs env reg).2 =
      reg.filterMap (fun p => if stepAttempt env p.1 p.2 = true then some p.1 else none) := by
  rw [check_monitored_jobs, tickGo_snd]
  rfl
/-! ## Registry invariant preservation -/

theorem bool_eq_false_of_ne_true {b : Bool} (h : ¬ b = true) : b = false := by
  cases b
  · rfl
  · exact absurd rfl h

theorem rget_rdel_some {reg : Registry} {k j : String} {e : MonitorEntry}
    (h : rget (rdel reg k) j = some e) : rget reg j = some e := by
  by_cases hc : j = k
  · subst hc
    rw [rget_rdel_self] at h
    exact absurd h (by simp)
  · rw [rget_rdel_ne _ hc] at h
    exact h

/-- The non-terminal invariant on the registry: every stored `last_state` is
non-terminal. -/
def NonTerminalInv (reg : Registry) : Prop :=
  ∀ j e, rget reg j = some e → isTerminal e.last_state = false

/-- The Python-dict key invariant together with the non-terminal invariant. -/
def RegInv (reg : Registry) : Prop :=
  (rkeys reg).Nodup ∧ NonTerminalInv reg

theorem regInv_subscribe (reg : Registry) (req : SubRequest) (details : Details)
    (h : RegInv reg) : RegInv (monitor_job reg req details).reg := by
  dsimp only [monitor_job]
  by_cases h1 : hasKeyS details "Error" = true
  · simpa [h1] using h
  · simp only [if_neg h1]
    by_cases h2 : isTerminal (dgetS details "JobState" "UNKNOWN") = true
    · simpa [h2] using h
    · simp only [if_neg h2]
      refine ⟨nodup_rkeys_rset _ _ h.1, fun j e hj => ?_⟩
      by_cases hc : j = cleanId req.job_id
      · subst hc
        rw [rget_rset_self] at hj
        injection hj with hj'
        subst hj'
        exact bool_eq_false_of_ne_true h2
      · rw [rget_rset_ne _ _ hc] at hj
        exact h.2 j e hj

theorem regInv_unsubscribe (au : List Int) (reg : Registry) (uid : Int) (jid : String)
    (h : RegInv reg) : RegInv (stop_monitoring_job au reg uid jid).1 := by
  dsimp only [stop_monitoring_job]
  cases hr : rget reg (cleanId jid) with
  | none => simp only [hr]; exact h
  | some e =>
    simp only [hr]
    by_cases hc : e.user_id ≠ uid ∧ is_authorized au uid = false
    · simp only [if_pos hc]
      exact h
    · simp only [if_neg hc]
      exact ⟨nodup_rkeys_rdel _ h.1, fun j e' hj => h.2 j e' (rget_rdel_some hj)⟩

theorem regInv_tick (env : TickEnv) (reg : Registry) (h : RegInv reg) :
    RegInv (check_monitored_jobs env reg).1 := by
  refine ⟨tickGo_fst_nodup env reg (reg, []) h.1, fun j e' hj => ?_⟩
  cases hr : rget reg j with
  | none =>
    rw [tick_rget_none hr] at hj
    exact absurd hj (by simp)
  | some e =>
    rw [tick_rget h.1 hr] at hj
    have he : isTerminal e.last_state = false := h.2 j e hr
    dsimp only [stepResult] at hj
    by_cases h1 : hasKeyS (env.query j) "Error" = true
    · rw [if_pos h1] at hj
      injection hj with hj'
      subst hj'
      exact he
    · rw [if_neg h1] at hj
      by_cases h2 : dgetS (env.query j) "JobState" "UNKNOWN" ≠ e.last_state ∧
          isTerminal (dgetS (env.query j) "JobState" "UNKNOWN") = true
      · rw [if_pos h2] at hj
        by_cases h3 : env.dispatchOk j = true
        · rw [if_pos h3] at hj
          exact absurd hj (by simp)
        · rw [if_neg h3] at hj
          injection hj with hj'
          subst hj'
          exact he
      · rw [if_neg h2] at hj
        by_cases h4 : dgetS (env.query j) "JobState" "UNKNOWN" ≠ e.last_state
        · rw [if_pos h4] at hj
          injection hj with hj'
          subst hj'
          have h5 : isTerminal (dgetS (env.query j) "JobState" "UNKNOWN") = false := by
            rcases Bool.eq_false_or_eq_true
                (isTerminal (dgetS (env.query j) "JobState" "UNKNOWN")) with hb | hb
            · exact absurd ⟨h4, hb⟩ h2
            · exact hb
          simpa using h5
        · rw [if_neg h4] at hj
          injection hj with hj'
          subst hj'
          exact he

theorem regInv_applyOp (reg : Registry) (op : RegOp) (h : RegInv reg) :
    RegInv (applyOp reg op) := by
  cases op with
  | subscribe req details => exact regInv_subscribe reg req details h
  | unsubscribe au uid jid => exact regInv_unsubscribe au reg uid jid h
  | tick env => exact regInv_tick env reg h

theorem regInv_foldl (ops : List RegOp) :
    ∀ reg, RegInv reg → RegInv (ops.foldl applyOp reg) := by
  induction ops with
  | nil => intro reg h; exact h
  | cons op rest ih => intro reg h; exact ih _ (regInv_applyOp reg op h)

theorem regInv_runOps (ops : List RegOp) : RegInv (runOps ops) :=
  regInv_foldl ops [] ⟨List.nodup_nil, fun j e hj => by simp [rget] at hj⟩

/-! ## Claim C2: registry invariant in every reachable state -/

/-- Claim C2: in every reachable registry state — any sequence of subscribe,
unsubscribe and monitor-tick operations applied to the empty registry of a
fresh process — every entry present in `MONITORED_JOBS` has a `last_state`
that is not one of COMPLETED, CANCELLED, FAILED, TIMEOUT: `monitor_job`
stores a non-terminal state (terminal jobs are rejected) and
`check_monitored_jobs` only ever overwrites `last_state` with a non-terminal
state. -/
theorem registry_entries_nonterminal (ops : List RegOp) (j : String)
    (e : MonitorEntry) (h : rget (runOps ops) j = some e) :
    isTerminal e.last_state = false :=
  (regInv_runOps ops).2 j e h

/-- Witness for C2: after subscribing to a PENDING job, its stored state is
non-terminal. -/
theorem registry_entries_nonterminal_witness :
    isTerminal (MonitorEntry.mk 7 9 "PENDING" "2024-01-01 00:00:00").last_state = false :=
  registry_entries_nonterminal
    [RegOp.subscribe ⟨7, 9, "123", "2024-01-01 00:00:00"⟩ [("JobState", "PENDING")]]
    "123" (MonitorEntry.mk 7 9 "PENDING" "2024-01-01 00:00:00") (by decide)

/-! ## Claim C4: subscribe rejection -/

/-- Claim C4: `monitor_job` rejects — leaving the registry unchanged, creating
no entry and persisting nothing — exactly when the freshly queried details
carry an error (job not found) or a terminal state (in particular COMPLETED);
it accepts exactly for found, non-terminal jobs. -/
theorem subscribe_rejects_terminal_or_missing (reg : Registry) (req : SubRequest)
    (details : Details) :
    ((hasKeyS details "Error" = true ∨
        isTerminal (dgetS details "JobState" "UNKNOWN") = true) →
      monitor_job reg req details = ⟨reg, false, false⟩) ∧
    ((monitor_job reg req details).accepted = true ↔
      (hasKeyS details "Error" = false ∧
        isTerminal (dgetS details "JobState" "UNKNOWN") = false)) := by
  dsimp only [monitor_job]
  by_cases h1 : hasKeyS details "Error" = true
  · refine ⟨fun _ => by simp [h1], ?_⟩
    simp [h1]
  · by_cases h2 : isTerminal (dgetS details "JobState" "UNKNOWN") = true
    · refine ⟨fun _ => by simp [h1, h2], ?_⟩
      simp [h1, h2]
    · refine ⟨fun hor => ?_, ?_⟩
      · rcases hor with h | h
        · exact absurd h h1
        · exact absurd h h2
      · simp [h1, h2, bool_eq_false_of_ne_true h1, bool_eq_false_of_ne_true h2]

/-- Witness for C4: subscribing to a COMPLETED job is rejected with the
registry untouched and nothing persisted. -/
theorem subscribe_rejects_terminal_or_missing_witness :
    monitor_job [] ⟨7, 9, "123", "2024-01-01 00:00:00"⟩ [("JobState", "COMPLETED")] =
      ⟨[], false, false⟩ :=
  (subscribe_rejects_terminal_or_missing [] ⟨7, 9, "123", "2024-01-01 00:00:00"⟩
    [("JobState", "COMPLETED")]).1 (Or.inr (by decide))

/-! ## Claim C9: unsubscribe idempotence -/

/-- Claim C9: for a monitored job and an authorized requester (the original
subscriber or an authorized operator), calling `stop_monitoring_job` twice on
the same job id yields Removed then NotFound; the second call produces
nothing other than the NotFound reply and leaves the registry as it was. -/
theorem unsubscribe_idempotent (au : List Int) (reg : Registry) (uid : Int)
    (job_id : String) (e : MonitorEntry)
    (hj : rget reg (cleanId job_id) = some e)
    (hauth : e.user_id = uid ∨ is_authorized au uid = true) :
    stop_monitoring_job au reg uid job_id = (rdel reg (cleanId job_id), .Removed) ∧
    stop_monitoring_job au (rdel reg (cleanId job_id)) uid job_id =
      (rdel reg (cleanId job_id), .NotFound) := by
  have hcond : ¬ (e.user_id ≠ uid ∧ is_authorized au uid = false) := by
    rcases hauth with h | h
    · exact fun hc => hc.1 h
    · intro hc
      rw [h] at hc
      exact absurd hc.2 (by simp)
  constructor
  · dsimp only [stop_monitoring_job]
    simp only [hj]
    rw [if_neg hcond]
  · dsimp only [stop_monitoring_job]
    simp only [rget_rdel_self]

/-- Witness for C9: removing job 123 subscribed by user 7 succeeds, applied
at a concrete singleton registry. -/
theorem unsubscribe_idempotent_witness :
    stop_monitoring_job [] [("123", MonitorEntry.mk 7 9 "RUNNING" "t")] 7 "123" =
      (rdel [("123", MonitorEntry.mk 7 9 "RUNNING" "t")] (cleanId "123"),
        UnsubResult.Removed) :=
  (unsubscribe_idempotent [] [("123", MonitorEntry.mk 7 9 "RUNNING" "t")] 7 "123"
    (MonitorEntry.mk 7 9 "RUNNING" "t") (by decide) (Or.inl (by decide))).1

/-! ## Claim C1: removal iff terminal observed and dispatch succeeded -/

/-- Used by the C1 witness: the non-terminal invariant holds for a concrete
singleton registry. -/
theorem nonTerminalInv_singleton {k : String} {ent : MonitorEntry}
    (h : isTerminal ent.last_state = false) : NonTerminalInv [(k, ent)] := by
  intro j e hj
  by_cases hc : k = j
  · simp only [rget, if_pos hc] at hj
    injection hj with hj'
    rw [← hj']
    exact h
  · simp only [rget, if_neg hc] at hj
    exact absurd hj (by simp [rget])

/-- Claim C1: under the registry invariant (which holds in every reachable
state, claim C2), one monitor tick removes a monitored entry if and only if
its re-query succeeded, the observed state is terminal, and the notification
dispatch did not raise; and when the dispatch raises on a terminal
observation, the entry is left exactly as it was, so the next tick retries.
In particular an entry is never removed on a tick whose observed state is
non-terminal.  Iterating this per-tick characterization (the invariant is
preserved, `regInv_tick`) gives the statement for all tick sequences. -/
theorem tick_removes_iff_terminal_and_dispatched (env : TickEnv) (reg : Registry)
    (j : String) (e : MonitorEntry)
    (hnd : (rkeys reg).Nodup)
    (hinv : NonTerminalInv reg)
    (hj : rget reg j = some e) :
    (rget (check_monitored_jobs env reg).1 j = none ↔
      (hasKeyS (env.query j) "Error" = false ∧
        isTerminal (dgetS (env.query j) "JobState" "UNKNOWN") = true ∧
        env.dispatchOk j = true)) ∧
    ((hasKeyS (env.query j) "Error" = false ∧
        isTerminal (dgetS (env.query j) "JobState" "UNKNOWN") = true ∧
        env.dispatchOk j = false) →
      rget (check_monitored_jobs env reg).1 j = some e) := by
  have he : isTerminal e.last_state = false := hinv j e hj
  rw [tick_rget hnd hj]
  dsimp only [stepResult]
  by_cases h1 : hasKeyS (env.query j) "Error" = true
  · rw [if_pos h1]
    refine ⟨⟨fun hc => absurd hc (by simp), fun hc => ?_⟩, fun hc => ?_⟩
    · exact Bool.noConfusion (h1.symm.trans hc.1)
    · exact Bool.noConfusion (h1.symm.trans hc.1)
  · have h1' : hasKeyS (env.query j) "Error" = false := bool_eq_false_of_ne_true h1
    rw [if_neg h1]
    by_cases hT : isTerminal (dgetS (env.query j) "JobState" "UNKNOWN") = true
    · have hne : dgetS (env.query j) "JobState" "UNKNOWN" ≠ e.last_state := by
        intro hc
        rw [hc] at hT
        rw [hT] at he
        exact absurd he (by simp)
      rw [if_pos ⟨hne, hT⟩]
      by_cases hD : env.dispatchOk j = true
      · rw [if_pos hD]
        refine ⟨⟨fun _ => ⟨h1', hT, hD⟩, fun _ => rfl⟩, fun hc => ?_⟩
        rw [hc.2.2] at hD
        exact absurd hD (by simp)
      · rw [if_neg hD]
        exact ⟨⟨fun hc => absurd hc (by simp), fun hc => absurd hc.2.2 hD⟩, fun _ => rfl⟩
    · have hT2 : ¬ (dgetS (env.query j) "JobState" "UNKNOWN" ≠ e.last_state ∧
          isTerminal (dgetS (env.query j) "JobState" "UNKNOWN") = true) :=
        fun hc => hT hc.2
      rw [if_neg hT2]
      refine ⟨⟨fun hc => ?_, fun hc => absurd hc.2.1 hT⟩, fun hc => absurd hc.2.1 hT⟩
      by_cases h4 : dgetS (env.query j) "JobState" "UNKNOWN" ≠ e.last_state
      · rw [if_pos h4] at hc
        exact absurd hc (by simp)
      · rw [if_neg h4] at hc
        exact absurd hc (by simp)

/-- Witness for C1: a tick observing COMPLETED with a successful dispatch
removes the entry. -/
theorem tick_removes_iff_terminal_and_dispatched_witness :
    rget (check_monitored_jobs
      ⟨fun _ => [("JobState", "COMPLETED")], fun _ => true⟩
      [("123", MonitorEntry.mk 7 9 "RUNNING" "t")]).1 "123" = none :=
  ((tick_removes_iff_terminal_and_dispatched
      ⟨fun _ => [("JobState", "COMPLETED")], fun _ => true⟩
      [("123", MonitorEntry.mk 7 9 "RUNNING" "t")] "123"
      (MonitorEntry.mk 7 9 "RUNNING" "t") (by decide)
      (nonTerminalInv_singleton (by decide)) (by decide)).1).mpr
    ⟨by decide, by decide, by decide⟩

/-! ## Claim C7: a failed re-query skips the entry without any mutation -/

/-- Claim C7: within a tick, an entry whose state re-query fails (the
`get_job_details` result carries an `"Error"` key) is left exactly as it was
— still present, fields unchanged — and no notification dispatch is attempted
for it; every other entry is still processed exactly as the per-entry step
prescribes (the loop continues past the failed entry). -/
theorem tick_skips_entry_on_query_error (env : TickEnv) (reg : Registry)
    (j : String) (e : MonitorEntry)
    (hnd : (rkeys reg).Nodup)
    (hj : rget reg j = some e)
    (herr : hasKeyS (env.query j) "Error" = true) :
    rget (check_monitored_jobs env reg).1 j = some e ∧
    j ∉ (check_monitored_jobs env reg).2 ∧
    (∀ j' e', rget reg j' = some e' →
      rget (check_monitored_jobs env reg).1 j' = stepResult env j' e') := by
  refine ⟨?_, ?_, fun j' e' hj' => tick_rget hnd hj'⟩
  · rw [tick_rget hnd hj]
    dsimp only [stepResult]
    rw [if_pos herr]
  · rw [tick_attempts]
    intro hmem
    rcases List.mem_filterMap.mp hmem with ⟨p, hp, hpe⟩
    by_cases ha : stepAttempt env p.1 p.2 = true
    · rw [if_pos ha] at hpe
      injection hpe with hpj
      subst hpj
      dsimp only [stepAttempt] at ha
      rw [if_pos herr] at ha
      exact absurd ha (by simp)
    · rw [if_neg ha] at hpe
      exact absurd hpe (by simp)

/-- Witness for C7: with a failing query the entry survives the tick
unchanged. -/
theorem tick_skips_entry_on_query_error_witness :
    rget (check_monitored_jobs
      ⟨fun _ => [("JobId", "123"), ("Error", "Error: squeue failed")], fun _ => true⟩
      [("123", MonitorEntry.mk 7 9 "RUNNING" "t")]).1 "123" =
      some (MonitorEntry.mk 7 9 "RUNNING" "t") :=
  (tick_skips_entry_on_query_error
    ⟨fun _ => [("JobId", "123"), ("Error", "Error: squeue failed")], fun _ => true⟩
    [("123", MonitorEntry.mk 7 9 "RUNNING" "t")] "123"
    (MonitorEntry.mk 7 9 "RUNNING" "t") (by decide) (by decide) (by decide)).1

/-! ## Claim C3: command executor contract -/

/-- Counterexample to C3 as frozen: on nonzero exit with nonempty stderr,
`ok` is `false` but the text is not equal to the trimmed stderr — the code
prefixes it with `"Error: "`. -/
theorem run_slurm_command_text_not_trimmed_stderr :
    (run_slurm_command ["squeue", "--me"] ⟨1, "", " boom\n"⟩).1 = false ∧
    (run_slurm_command ["squeue", "--me"] ⟨1, "", " boom\n"⟩).2 ≠ pyStrip " boom\n" := by
  decide

/-- Claim C3 (amended): `run_slurm_command` is total over every outcome of
the external invocation — the `CalledProcessError` raised on nonzero exit is
caught, never escaping the boundary.  On zero exit it returns `ok=true` with
stdout, a placeholder substituted for empty stdout; on nonzero exit it
returns `ok=false` with text `"Error: "` followed by the trimmed stderr,
falling back to the generic `str(e)` description when the trimmed stderr is
empty.  (The frozen claim said the failure text equals the trimmed stderr;
the `"Error: "` prefix is the only correction.) -/
theorem run_slurm_command_contract (cmd : List String) (res : ProcResult) :
    (res.returncode = 0 →
      run_slurm_command cmd res =
        (true, if res.stdout = "" then "(command completed successfully)" else res.stdout)) ∧
    (res.returncode ≠ 0 →
      run_slurm_command cmd res =
        (false, "Error: " ++
          (if pyStrip res.stderr = "" then
            cpeStr ⟨cmd, res.returncode, res.stdout, res.stderr⟩
          else pyStrip res.stderr))) := by
  constructor
  · intro h
    dsimp only [run_slurm_command, subprocessRunCheck]
    rw [if_pos h]
  · intro h
    dsimp only [run_slurm_command, subprocessRunCheck]
    rw [if_neg h]

/-- Witness for C3: a failing invocation with diagnostic stderr, a failing
invocation with whitespace-only stderr (exercising the `str(e)` fallback),
and a succeeding invocation, all evaluated. -/
theorem run_slurm_command_contract_witness :
    run_slurm_command ["squeue", "--me"] ⟨1, "", " boom\n"⟩ = (false, "Error: boom") ∧
    run_slurm_command ["squeue", "--me"] ⟨1, "", " \n"⟩ =
      (false, "Error: Command '['squeue', '--me']' returned non-zero exit status 1.") ∧
    run_slurm_command ["squeue", "--me"] ⟨0, "out", ""⟩ = (true, "out") := by
  refine ⟨?_, ?_, ?_⟩
  · exact ((run_slurm_command_contract ["squeue", "--me"] ⟨1, "", " boom\n"⟩).2
      (by decide)).trans (by decide)
  · exact ((run_slurm_command_contract ["squeue", "--me"] ⟨1, "", " \n"⟩).2
      (by decide)).trans (by decide)
  · exact ((run_slurm_command_contract ["squeue", "--me"] ⟨0, "out", ""⟩).1
      (by decide)).trans (by decide)

/-! ## Claim C6: job id normalization -/

theorem takeWhile_append_of_all (p : Char → Bool) (l1 l2 : List Char)
    (h : ∀ c ∈ l1, p c = true) :
    (l1 ++ l2).takeWhile p = l1 ++ l2.takeWhile p := by
  induction l1 with
  | nil => simp
  | cons c cs ih =>
    have hc : p c = true := h c (List.mem_cons_self _ _)
    simp only [List.cons_append, List.takeWhile_cons, hc, if_true]
    rw [ih (fun d hd => h d (List.mem_cons_of_mem _ hd))]

theorem takeWhile_eq_nil_of_head (p : Char → Bool) (l : List Char)
    (h : ∀ c ∈ l.take 1, p c = false) : l.takeWhile p = [] := by
  cases l with
  | nil => rfl
  | cons c cs =>
    have hc : p c = false := h c (by simp)
    simp [List.takeWhile_cons, hc]

/-- Claim C6: a job id consisting of a nonempty run of digits followed by an
array/step suffix whose first character is not a digit (e.g. `"_0"` or
`".batch"`) always normalizes to the base numeric id — the maximal leading
digit run — before any registry lookup or scheduler action. -/
theorem cleanId_strips_suffix (base suffix : List Char)
    (hb : base ≠ [])
    (hd : ∀ c ∈ base, c.isDigit = true)
    (hs : ∀ c ∈ suffix.take 1, c.isDigit = false) :
    cleanId ⟨base ++ suffix⟩ = ⟨base⟩ := by
  dsimp only [cleanId]
  rw [takeWhile_append_of_all _ base suffix hd, takeWhile_eq_nil_of_head _ suffix hs,
    List.append_nil]
  have hbe : base.isEmpty = false := by
    cases base with
    | nil => exact absurd rfl hb
    | cons a l => rfl
  simp [hbe]

/-- Witness for C6: `"60489632_0"` normalizes to `"60489632"`. -/
theorem cleanId_strips_suffix_witness : cleanId "60489632_0" = "60489632" := by
  have h := cleanId_strips_suffix
    ['6', '0', '4', '8', '9', '6', '3', '2'] ['_', '0']
    (by decide) (by decide) (by decide)
  exact h

/-! ## Claim C5: resource usage for pending/unknown jobs -/

/-- Counterexample to C5 as frozen: for a PENDING job the function does not
return an empty (or absent) map — the base allocation and state fields are
always present. -/
theorem resource_usage_pending_nonempty :
    get_job_resource_usage "123"
      ⟨[("JobState", "PENDING")], (false, ""), (false, ""), (false, "")⟩ ≠ ([] : UDict) := by
  decide

/-- Claim C5 (amended): for a job whose state is neither RUNNING nor terminal
(in particular PENDING or UNKNOWN), `get_job_resource_usage` adds no resource
usage metrics at all: the result is exactly the base dict of allocation, node,
state and id fields, and carries no `sstat`/`sacct` usage fields such as
`AveCPU`, `MaxRSS` or `ExitCode`; the caller must treat the absent usage data
as "not yet available", not as a failure.  (The frozen claim said the result
itself is empty or absent; the code always returns the non-empty base dict.) -/
theorem resource_usage_pending_base (job_id : String) (env : UsageEnv)
    (h1 : dgetS env.details "JobState" "UNKNOWN" ≠ "RUNNING")
    (h2 : isTerminal (dgetS env.details "JobState" "UNKNOWN") = false) :
    get_job_resource_usage job_id env = baseResult job_id env.details ∧
    dlookup (get_job_resource_usage job_id env) "AveCPU" = none ∧
    dlookup (get_job_resource_usage job_id env) "MaxRSS" = none ∧
    dlookup (get_job_resource_usage job_id env) "ExitCode" = none := by
  have hmain : get_job_resource_usage job_id env = baseResult job_id env.details := by
    dsimp only [get_job_resource_usage]
    rw [if_neg h1, if_neg (by simp [h2])]
  refine ⟨hmain, ?_, ?_, ?_⟩ <;> rw [hmain] <;> simp [baseResult, dlookup]

/-- Witness for C5: a PENDING job yields exactly the base dict. -/
theorem resource_usage_pending_base_witness :
    get_job_resource_usage "123"
      ⟨[("JobState", "PENDING")], (false, ""), (false, ""), (false, "")⟩ =
      baseResult "123" [("JobState", "PENDING")] :=
  (resource_usage_pending_base "123"
    ⟨[("JobState", "PENDING")], (false, ""), (false, ""), (false, "")⟩
    (by decide) (by decide)).1

/-! ## Claim C10: terminal states are relabelled COMPLETED -/

theorem dlookup_dset_self (d : UDict) (k : String) (v : UVal) :
    dlookup (dset d k v) k = some v := by
  induction d with
  | nil => simp [dset, dlookup]
  | cons p rest ih =>
    by_cases h : p.1 = k <;> simp [dset, h, dlookup, ih]

/-- Claim C10: for a job whose state is CANCELLED, FAILED or TIMEOUT, when
the `sacct` accounting query succeeds with a header row and at least one data
row, `get_job_resource_usage` overwrites the result's `JobState` field with
the literal string `"COMPLETED"`, so the returned map reports COMPLETED even
though the job's actual terminal state differs. -/
theorem resource_usage_relabels_terminal (job_id : String) (env : UsageEnv)
    (hstate : dgetS env.details "JobState" "UNKNOWN" = "CANCELLED" ∨
      dgetS env.details "JobState" "UNKNOWN" = "FAILED" ∨
      dgetS env.details "JobState" "UNKNOWN" = "TIMEOUT")
    (hok : env.sacct.1 = true)
    (hne : pyStrip env.sacct.2 ≠ "")
    (hrows : ∃ h v rest, pySplit (pyStrip env.sacct.2) '\n' = h :: v :: rest) :
    dlookup (get_job_resource_usage job_id env) "JobState" = some (.s "COMPLETED") := by
  have hnr : dgetS env.details "JobState" "UNKNOWN" ≠ "RUNNING" := by
    rcases hstate with h | h | h <;> rw [h] <;> decide
  have ht : isTerminal (dgetS env.details "JobState" "UNKNOWN") = true := by
    rcases hstate with h | h | h <;> rw [h] <;> decide
  dsimp only [get_job_resource_usage]
  rw [if_neg hnr, if_pos ht, if_pos ⟨hok, hne⟩]
  obtain ⟨h, v, rest, hr⟩ := hrows
  rw [hr]
  exact dlookup_dset_self _ _ _

/-- Witness for C10: a FAILED job with a two-row `sacct` table reports
`JobState = "COMPLETED"`. -/
theorem resource_usage_relabels_terminal_witness :
    dlookup (get_job_resource_usage "123"
      ⟨[("JobState", "FAILED")], (false, ""), (false, ""),
        (true, "JobID|State|ExitCode\n123|FAILED|1:0")⟩) "JobState" =
      some (UVal.s "COMPLETED") :=
  resource_usage_relabels_terminal "123"
    ⟨[("JobState", "FAILED")], (false, ""), (false, ""),
      (true, "JobID|State|ExitCode\n123|FAILED|1:0")⟩
    (Or.inr (Or.inl (by decide))) (by decide) (by decide)
    ⟨"JobID|State|ExitCode", "123|FAILED|1:0", [], by decide⟩

/-! ## Claim C8: persistence round trip -/

theorem entry_roundtrip (e : MonitorEntry) : entryOfJson (entryToJson e) = some e := rfl

theorem decode_encode (reg : Registry) :
    decodeFields (reg.map (fun p => (p.1, entryToJson p.2))) = some reg := by
  induction reg with
  | nil => rfl
  | cons p rest ih => simp [decodeFields, entry_roundtrip, ih]

/-- Claim C8: persisting the registry (the `json.dump` document written by
`save_monitored_jobs`) and reading it back in a fresh process
(`load_monitored_jobs` via `json.load`) yields a mapping identical to the one
saved. -/
theorem save_load_roundtrip (reg : Registry) :
    load_monitored_jobs (save_monitored_jobs reg) = some reg := by
  dsimp only [save_monitored_jobs, load_monitored_jobs]
  exact decode_encode reg

end GreenBoy
